import Mathlib

/-!
Verification of memory-safe-guard-v2 (browser password manager).

The remote record client lives in src/src/lib/supabase-service-fixed.ts
(class SupabasePasswordService); environment/configuration validation lives
in the supabase client module (validateConfig).

Shallow embedding conventions:
* JavaScript strings are modelled as `List Char` (`Str`); JS string
  truthiness (non-empty) becomes `s ≠ []`; `trim` is modelled by
  `trimList` (dropping the common whitespace characters from both ends).
* Every remote operation is split into its synchronous pre-network phase
  (a pure function returning `Except String request`: `.error e` means the
  operation throws before any network call, `.ok req` means exactly the
  network request `req` is issued) and, where needed, the response
  processing (`convertFromDatabase`).  `handleError` re-raises with an
  operation-specific prefix taken from a constants module that is not part
  of the sources; the prefix is therefore not modelled and errors carry
  the inner message thrown by the service code.
* Timestamps handled by the remote table are modelled as `Nat`
  (milliseconds); wire rows returned to the client carry their fields as
  `Option Str` (`none` = field absent on the row).
-/

namespace MemorySafeGuard

/-- JS strings modelled as lists of characters. -/
abbrev Str := List Char

/-- Whitespace for the purpose of JS `String.prototype.trim`
(space, tab, line feed, carriage return cover every character the
claims exercise). -/
def isWs (c : Char) : Bool :=
  c = ' ' || c = '\t' || c = '\n' || c = '\r'

/-- Model of JS `trim`: drop whitespace from both ends. -/
def trimList (s : Str) : Str :=
  ((s.dropWhile isWs).reverse.dropWhile isWs).reverse

/-- Application record shape (interface PasswordEntry). -/
structure PasswordEntry where
  id : Str
  service : Str
  username : Str
  password : Str
  createdAt : Str
  updatedAt : Str
deriving DecidableEq, Repr

/-- Input to addPassword (type CreatePasswordEntry: service, username,
password all present). -/
structure CreatePasswordEntry where
  service : Str
  username : Str
  password : Str
deriving DecidableEq, Repr

/-- Input to updatePassword (type UpdatePasswordEntry =
Partial of CreatePasswordEntry); `none` models an absent field. -/
structure UpdatePasswordEntry where
  service : Option Str
  username : Option Str
  password : Option Str
deriving DecidableEq, Repr

/-- View of a full create input as a partial input (all fields present),
used because validatePasswordData accepts both shapes. -/
def CreatePasswordEntry.toUpdate (d : CreatePasswordEntry) : UpdatePasswordEntry :=
  ⟨some d.service, some d.username, some d.password⟩

/-- One guard of validatePasswordData:
`'f' in data && data.f && (!data.f.trim() || data.f.length > max)`.
The field is only checked when it is present AND truthy (non-empty):
an absent field and an empty-string field are both skipped. -/
def validateField (v : Option Str) (maxLen : Nat) (msg : String) : Option String :=
  match v with
  | none => none
  | some s => if s ≠ [] ∧ (trimList s = [] ∨ s.length > maxLen) then some msg else none

/-- SupabasePasswordService.validatePasswordData: checks service, then
username, then password; the first violated guard throws (here: returns
`some message`). -/
def validatePasswordData (d : UpdatePasswordEntry) : Option String :=
  match validateField d.service 100 "Service name must be between 1-100 characters" with
  | some e => some e
  | none =>
    match validateField d.username 100 "Username must be between 1-100 characters" with
    | some e => some e
    | none => validateField d.password 500 "Password must be between 1-500 characters"

/-- Row object sent by insert requests
(`{ service: ..., username: ..., password: ... }`). -/
structure InsertRow where
  service : Str
  username : Str
  password : Str
deriving DecidableEq, Repr

/-- The object literal addPassword / batchAddPasswords build for each input. -/
def CreatePasswordEntry.toInsertRow (d : CreatePasswordEntry) : InsertRow :=
  ⟨d.service, d.username, d.password⟩

/-- Pre-network phase of SupabasePasswordService.addPassword:
validate, then issue one insert carrying the three fields.
`.error e` = the call throws before any network request;
`.ok rows` = the insert request with payload `rows` is issued. -/
def addPasswordPre (d : CreatePasswordEntry) : Except String (List InsertRow) :=
  match validatePasswordData d.toUpdate with
  | some e => .error e
  | none => .ok [d.toInsertRow]

/-- Keys an update payload can carry: Object.entries of an
UpdatePasswordEntry only ever yields these three property names. -/
inductive UpdateKey where
  | service
  | username
  | password
deriving DecidableEq, Repr

/-- The ordered property list Object.entries(passwordData) iterates over
(insertion order of the literal: service, username, password; an absent
field stands as `none`). -/
def entryList (d : UpdatePasswordEntry) : List (UpdateKey × Option Str) :=
  [(UpdateKey.service, d.service), (UpdateKey.username, d.username), (UpdateKey.password, d.password)]

/-- The reduce in updatePassword building the update object: a field is
kept exactly when its value is neither undefined nor null and
`value.toString().trim()` is truthy (non-empty after trimming). -/
def collectUpdateFields (d : UpdatePasswordEntry) : List (UpdateKey × Str) :=
  (entryList d).filterMap fun kv =>
    match kv.2 with
    | some v => if trimList v = [] then none else some (kv.1, v)
    | none => none

/-- The update network request: `update set fields where id = eq id`. -/
structure UpdateRequest where
  id : Str
  fields : List (UpdateKey × Str)
deriving DecidableEq, Repr

/-- Pre-network phase of SupabasePasswordService.updatePassword:
reject a blank id, validate the partial input, build the update object
from the truthy-after-trim fields, reject an empty update object, and
otherwise issue the update request. -/
def updatePasswordPre (id : Str) (d : UpdatePasswordEntry) : Except String UpdateRequest :=
  if trimList id = [] then .error "Password ID is required"
  else
    match validatePasswordData d with
    | some e => .error e
    | none =>
      let fs := collectUpdateFields d
      if fs = [] then .error "No valid fields to update"
      else .ok ⟨id, fs⟩

/-- The indexed validation loop of batchAddPasswords: the first input
whose validation throws aborts the whole batch with an indexed message
(JS stringifies the caught Error object into the template, hence the
inner "Error: " prefix). -/
def batchValidateAux (i : Nat) : List CreatePasswordEntry → Option String
  | [] => none
  | p :: rest =>
    match validatePasswordData p.toUpdate with
    | some e => some ("Validation failed for password " ++ toString (i + 1) ++ ": Error: " ++ e)
    | none => batchValidateAux (i + 1) rest

/-- Pre-network phase of SupabasePasswordService.batchAddPasswords:
reject an empty batch, validate every input in order, and only then
issue one insert request carrying every row.  `.error` = the call throws
with zero inserts issued; `.ok rows` = the single batch insert request. -/
def batchAddPasswordsPre (ps : List CreatePasswordEntry) : Except String (List InsertRow) :=
  if ps.length = 0 then .error "No passwords provided for batch insert"
  else
    match batchValidateAux 0 ps with
    | some e => .error e
    | none => .ok (ps.map CreatePasswordEntry.toInsertRow)

/-- C1: the claim states that any emptiness/length violation of
service, username or password makes addPassword fail with a validation
error before any network call.  The code violates this: an empty-string
service is falsy, so the truthiness guard in validatePasswordData skips
the check entirely, validation reports no error, and addPassword issues
the insert network request for a record whose service violates the
non-empty-after-trimming constraint.  (The guard's own error message,
"Service name must be between 1-100 characters", documents the intended
minimum length of 1.) -/
theorem addPassword_empty_service_not_rejected :
    validatePasswordData (CreatePasswordEntry.toUpdate ⟨[], "user".toList, "secret".toList⟩) = none ∧
    addPasswordPre ⟨[], "user".toList, "secret".toList⟩ =
      .ok [⟨[], "user".toList, "secret".toList⟩] := by
  exact ⟨rfl, rfl⟩

/-- If some input of the batch fails validation, the indexed validation
loop reports an error, whatever index it starts from. -/
lemma batchValidateAux_ne_none {ps : List CreatePasswordEntry}
    (h : ∃ p ∈ ps, validatePasswordData p.toUpdate ≠ none) :
    ∀ i, batchValidateAux i ps ≠ none := by
  induction ps with
  | nil => rcases h with ⟨p, hp, _⟩; cases hp
  | cons q rest ih =>
    intro i
    rcases h with ⟨p, hp, hv⟩
    rcases List.mem_cons.mp hp with rfl | hmem
    · cases hq : validatePasswordData p.toUpdate with
      | none => exact absurd hq hv
      | some e => simp [batchValidateAux, hq]
    · cases hq : validatePasswordData q.toUpdate with
      | none =>
        have hrest := ih ⟨p, hmem, hv⟩ (i + 1)
        simp [batchValidateAux, hq, hrest]
      | some e => simp [batchValidateAux, hq]

/-- C3: every input of a batch is validated before the (single) insert
request is built; if any input fails validation the whole call throws,
so no network request is issued and zero inserts are performed
(`.ok` is the only outcome that issues a network call). -/
theorem batchAdd_all_or_nothing (ps : List CreatePasswordEntry)
    (h : ∃ p ∈ ps, validatePasswordData p.toUpdate ≠ none) :
    ∃ e, batchAddPasswordsPre ps = .error e := by
  cases ps with
  | nil => rcases h with ⟨p, hp, _⟩; cases hp
  | cons q rest =>
    have h0 := batchValidateAux_ne_none h 0
    cases he : batchValidateAux 0 (q :: rest) with
    | none => exact absurd he h0
    | some e => exact ⟨e, by simp [batchAddPasswordsPre, he]⟩

/-- C3 witness: a batch holding one valid input and one input whose
service is whitespace-only (validation throws on it) performs zero
inserts. -/
theorem batchAdd_all_or_nothing_witness :
    ∃ e, batchAddPasswordsPre
      [⟨"svc".toList, "user".toList, "pw".toList⟩,
       ⟨"   ".toList, "user".toList, "pw".toList⟩] = .error e :=
  batchAdd_all_or_nothing _ (by decide)

/-- C4: for every non-blank record id, updating with an empty input
object (no fields at all) fails with "No valid fields to update" before
any network request is issued (the result is `.error`, never an `.ok`
carrying an update request). -/
theorem update_empty_input_fails (id : Str) (h : trimList id ≠ []) :
    updatePasswordPre id ⟨none, none, none⟩ = .error "No valid fields to update" := by
  simp [updatePasswordPre, h, validatePasswordData, validateField, collectUpdateFields,
    entryList]

/-- C4 witness: an empty update of the record id "abc" fails with
"No valid fields to update". -/
theorem update_empty_input_fails_witness :
    updatePasswordPre "abc".toList ⟨none, none, none⟩ = .error "No valid fields to update" :=
  update_empty_input_fails "abc".toList (by decide)

/-- Trimming the empty string yields the empty string. -/
lemma trimList_nil : trimList [] = [] := rfl

/-- Every field kept by the update-object reduce is non-blank after
trimming (that is the kept condition itself). -/
lemma mem_collectUpdateFields_trim_ne {d : UpdatePasswordEntry} {kv : UpdateKey × Str}
    (h : kv ∈ collectUpdateFields d) : trimList kv.2 ≠ [] := by
  rcases List.mem_filterMap.mp h with ⟨⟨k, v⟩, _, hf⟩
  cases v with
  | none => simp at hf
  | some s =>
    by_cases hs : trimList s = []
    · simp [hs] at hf
    · simp only [if_neg hs] at hf
      rcases hf with ⟨rfl, rfl⟩
      exact hs

/-- Inversion of a successful updatePassword pre-phase: the issued
request carries exactly the fields kept by the reduce. -/
lemma updatePasswordPre_ok_fields {id : Str} {d : UpdatePasswordEntry} {req : UpdateRequest}
    (h : updatePasswordPre id d = .ok req) : req.fields = collectUpdateFields d := by
  simp only [updatePasswordPre] at h
  split at h
  · cases h
  · split at h
    · cases h
    · split at h
      · cases h
      · cases h
        rfl

/-- C10 counterexample: the claim says an update whose supplied fields
all trim to empty fails with "No valid fields to update"; but a
whitespace-only (non-empty) service is truthy, so validatePasswordData
throws its length message first, and updatePassword fails with
"Service name must be between 1-100 characters" instead. -/
theorem update_whitespace_field_wrong_message :
    updatePasswordPre "abc".toList ⟨some "   ".toList, none, none⟩ =
      .error "Service name must be between 1-100 characters" ∧
    ("Service name must be between 1-100 characters" : String) ≠
      "No valid fields to update" :=
  ⟨rfl, by decide⟩

/-- C10 (amended): a field that is absent (undefined/null) or an empty
string is excluded from the update payload; every field of an issued
update request is non-blank after trimming (so no update can set a
stored field to an empty or whitespace-only value); and an update whose
supplied fields are all absent or empty strings fails with
"No valid fields to update" before any network call.  (A supplied
whitespace-only non-empty field instead fails validation with a length
message, also before any network call.) -/
theorem update_payload_no_blank_fields (id : Str) (d : UpdatePasswordEntry) :
    (∀ req, updatePasswordPre id d = .ok req → ∀ kv ∈ req.fields, trimList kv.2 ≠ []) ∧
    ((d.service = none ∨ d.service = some []) →
     (d.username = none ∨ d.username = some []) →
     (d.password = none ∨ d.password = some []) →
     trimList id ≠ [] →
     updatePasswordPre id d = .error "No valid fields to update") := by
  constructor
  · intro req hok kv hkv
    rw [updatePasswordPre_ok_fields hok] at hkv
    exact mem_collectUpdateFields_trim_ne hkv
  · intro h1 h2 h3 hid
    rcases h1 with h1 | h1 <;> rcases h2 with h2 | h2 <;> rcases h3 with h3 | h3 <;>
      simp [updatePasswordPre, hid, validatePasswordData, validateField,
        collectUpdateFields, entryList, h1, h2, h3, trimList_nil]

/-- C10 witness: updating record "abc" with service supplied as the
empty string (and no other fields) fails with
"No valid fields to update". -/
theorem update_payload_no_blank_fields_witness :
    updatePasswordPre "abc".toList ⟨some [], none, none⟩ =
      .error "No valid fields to update" :=
  (update_payload_no_blank_fields "abc".toList ⟨some [], none, none⟩).2
    (Or.inr rfl) (Or.inl rfl) (Or.inl rfl) (by decide)

/-- Wire row shape returned by the remote table
(interface DatabasePasswordRow); `none` models a field absent on the
returned row.  (The preceding null-row guard of convertFromDatabase is
not reached through the list-mapping paths modelled here.) -/
structure DatabasePasswordRow where
  id : Option Str
  service : Option Str
  username : Option Str
  password : Option Str
  created_at : Option Str
  updated_at : Option Str
deriving DecidableEq, Repr

/-- JS truthiness of a row field: present and non-empty
(the check `!dbRow[field]` fires on an absent field and on an empty
string alike). -/
def fieldTruthy : Option Str → Bool
  | none => false
  | some s => !s.isEmpty

/-- SupabasePasswordService.convertFromDatabase: walk the required
fields in order (id, service, username, password, created_at,
updated_at), throw on the first falsy one, otherwise rename snake_case
to camelCase one-to-one. -/
def convertFromDatabase (r : DatabasePasswordRow) : Except String PasswordEntry :=
  if fieldTruthy r.id = false then .error "Missing required field: id"
  else if fieldTruthy r.service = false then .error "Missing required field: service"
  else if fieldTruthy r.username = false then .error "Missing required field: username"
  else if fieldTruthy r.password = false then .error "Missing required field: password"
  else if fieldTruthy r.created_at = false then .error "Missing required field: created_at"
  else if fieldTruthy r.updated_at = false then .error "Missing required field: updated_at"
  else .ok ⟨r.id.getD [], r.service.getD [], r.username.getD [], r.password.getD [],
    r.created_at.getD [], r.updated_at.getD []⟩

/-- The two read requests the service issues against the table; both
carry `order updated_at descending`, and the search variant carries the
or-filter `service ilike pattern, username ilike pattern` with the
pattern built around the sanitized query. -/
inductive ReadRequest where
  | getAll
  | search (sq : Str)
deriving DecidableEq, Repr

/-- SupabasePasswordService.getAllPasswords, given the rows the table
returns for a request: `select * order updated_at desc`, then convert
every row (the first conversion failure aborts the call). -/
def getAllPasswords (db : ReadRequest → List DatabasePasswordRow) :
    Except String (List PasswordEntry) :=
  (db ReadRequest.getAll).mapM convertFromDatabase

/-- The replacement string of the wildcard regex in
sanitizeSearchQuery: a backslash followed by a fixed UUID. -/
def wildcardEscapeSeq : Str := "\\04159cb3-9186-4414-9c28-af252a86395a".toList

/-- The per-character global replace of the `[%_]` regex. -/
def escapeWildcards : Str → Str
  | [] => []
  | c :: cs => (if c == '%' || c == '_' then wildcardEscapeSeq else [c]) ++ escapeWildcards cs

/-- The per-character global replace of the `[<>]` regex by nothing. -/
def stripAngles (s : Str) : Str :=
  s.filter fun c => !(c == '<' || c == '>')

/-- SupabasePasswordService.sanitizeSearchQuery: trim, replace the
wildcards, strip the angle brackets, and only then truncate to 100
characters. -/
def sanitizeSearchQuery (q : Str) : Str :=
  (stripAngles (escapeWildcards (trimList q))).take 100

/-- SupabasePasswordService.searchPasswords: sanitize the query; a falsy
(empty) sanitized query delegates to getAllPasswords, otherwise the
ilike search request is issued and its rows converted. -/
def searchPasswords (q : Str) (db : ReadRequest → List DatabasePasswordRow) :
    Except String (List PasswordEntry) :=
  let sq := sanitizeSearchQuery q
  if sq = [] then getAllPasswords db
  else (db (ReadRequest.search sq)).mapM convertFromDatabase

/-- Lower-casing, modelling the case-insensitivity of ilike. -/
def lowerStr (s : Str) : Str := s.map Char.toLower

/-- SQL LIKE pattern matching (used to interpret the claim that escaped
wildcards are matched literally): a bare percent matches any run, a bare
underscore any single character, and a backslash makes the following
pattern character literal; a dangling final backslash matches nothing.
The fuel argument makes the recursion structural so the kernel can
evaluate concrete instances; matching consumes at least one unit of
pattern or text per step, so pattern length plus text length plus one is
always enough fuel. -/
def likeMatchesFuel : Nat → Str → Str → Bool
  | 0, _, _ => false
  | _ + 1, [], t => t.isEmpty
  | fuel + 1, '%' :: ps, t =>
    likeMatchesFuel fuel ps t ||
      (match t with
       | [] => false
       | _ :: ts => likeMatchesFuel fuel ('%' :: ps) ts)
  | fuel + 1, '_' :: ps, t =>
    (match t with
     | [] => false
     | _ :: ts => likeMatchesFuel fuel ps ts)
  | fuel + 1, '\\' :: c :: ps, t =>
    (match t with
     | [] => false
     | c2 :: ts => c == c2 && likeMatchesFuel fuel ps ts)
  | _ + 1, ['\\'], _ => false
  | fuel + 1, c :: ps, t =>
    (match t with
     | [] => false
     | c2 :: ts => c == c2 && likeMatchesFuel fuel ps ts)

/-- The pattern the or-filter of searchPasswords wraps around the
sanitized query: percent, query, percent. -/
def ilikePatternOf (sq : Str) : Str := '%' :: (sq ++ ['%'])

/-- Case-insensitive LIKE evaluation of a pattern against a stored
field value. -/
def ilikeMatches (pat t : Str) : Bool :=
  likeMatchesFuel (pat.length + t.length + 1) (lowerStr pat) (lowerStr t)

/-- Boolean prefix test on character lists. -/
def startsWithStr : Str → Str → Bool
  | [], _ => true
  | _ :: _, [] => false
  | a :: as, b :: bs => a == b && startsWithStr as bs

/-- Boolean substring test on character lists. -/
def containsStr (needle : Str) : Str → Bool
  | [] => needle.isEmpty
  | c :: rest => startsWithStr needle (c :: rest) || containsStr needle rest

/-- Case-insensitive substring containment: what a literally-treated
search query would match. -/
def ciContains (needle hay : Str) : Bool :=
  containsStr (lowerStr needle) (lowerStr hay)

/-- Trimming only ever drops characters. -/
lemma trimList_subset (s : Str) : trimList s ⊆ s := by
  intro c hc
  rw [trimList, List.mem_reverse] at hc
  have h1 : c ∈ (s.dropWhile isWs).reverse := List.dropWhile_subset isWs hc
  rw [List.mem_reverse] at h1
  exact List.dropWhile_subset isWs h1

/-- No character of the wildcard-replaced string is a bare wildcard:
wildcards are replaced wholesale and the replacement string holds none. -/
lemma escapeWildcards_no_wildcard {c : Char} :
    ∀ {s : Str}, c ∈ escapeWildcards s → ¬(c = '%' ∨ c = '_') := by
  intro s
  induction s with
  | nil => intro h; cases h
  | cons a as ih =>
    intro h
    rw [escapeWildcards, List.mem_append] at h
    rcases h with h | h
    · by_cases ha : (a == '%' || a == '_') = true
      · rw [if_pos ha] at h
        have : ∀ x ∈ wildcardEscapeSeq, ¬(x = '%' ∨ x = '_') := by decide
        exact this c h
      · rw [if_neg ha] at h
        rcases List.mem_singleton.mp h with rfl
        simpa using ha
    · exact ih h

/-- A string without wildcard characters passes the wildcard replace
unchanged. -/
lemma escapeWildcards_id {s : Str} (h : ∀ c ∈ s, ¬(c = '%' ∨ c = '_')) :
    escapeWildcards s = s := by
  induction s with
  | nil => rfl
  | cons a as ih =>
    have ha : ¬(a = '%' ∨ a = '_') := h a (List.mem_cons_self a as)
    have ha2 : (a == '%' || a == '_') = false := by
      simp only [Bool.or_eq_false_iff, beq_eq_false_iff_ne]
      exact ⟨fun h1 => ha (Or.inl h1), fun h2 => ha (Or.inr h2)⟩
    rw [escapeWildcards, if_neg (by simp [ha2]), ih (fun c hc => h c (List.mem_cons_of_mem a hc))]
    rfl

/-- A string without angle brackets passes the angle-bracket strip
unchanged. -/
lemma stripAngles_id {s : Str} (h : ∀ c ∈ s, ¬(c = '<' ∨ c = '>')) :
    stripAngles s = s := by
  rw [stripAngles, List.filter_eq_self]
  intro a ha
  have := h a ha
  simp only [Bool.not_eq_true', Bool.or_eq_false_iff, beq_eq_false_iff_ne]
  exact ⟨fun h1 => this (Or.inl h1), fun h2 => this (Or.inr h2)⟩

/-- C2 counterexample: the claim says the escaped wildcards are treated
literally, so the search text for the query "0%" should match exactly
the stored values containing "0%" — for instance the service "100%".
In the code the percent sign is replaced by a backslash-plus-UUID
marker, and the resulting ilike pattern does not match "100%": the
wildcard is not matched literally. -/
theorem sanitize_wildcard_not_literal :
    trimList "0%".toList = "0%".toList ∧
    ciContains "0%".toList "100%".toList = true ∧
    sanitizeSearchQuery "0%".toList =
      "0\\04159cb3-9186-4414-9c28-af252a86395a".toList ∧
    ilikeMatches (ilikePatternOf (sanitizeSearchQuery "0%".toList)) "100%".toList = false := by
  refine ⟨rfl, rfl, rfl, ?_⟩
  decide

/-- C2 (amended): sanitization trims the query, replaces each % and _
wholesale by a fixed backslash-prefixed marker (so no wildcard character
survives to act as a pattern, though the wildcards are not matched
literally), strips < and >, and truncates the result to at most 100
characters last; a query containing none of those four characters whose
trimmed form fits in 100 characters passes through as its trimmed
form. -/
theorem sanitizeSearchQuery_amended (q : Str) :
    (sanitizeSearchQuery q).length ≤ 100 ∧
    (∀ c ∈ sanitizeSearchQuery q, c ≠ '%' ∧ c ≠ '_' ∧ c ≠ '<' ∧ c ≠ '>') ∧
    ((∀ c ∈ q, ¬(c = '%' ∨ c = '_' ∨ c = '<' ∨ c = '>')) → (trimList q).length ≤ 100 →
      sanitizeSearchQuery q = trimList q) := by
  refine ⟨?_, ?_, ?_⟩
  · rw [sanitizeSearchQuery, List.length_take]
    exact Nat.min_le_left _ _
  · intro c hc
    have hstrip : c ∈ stripAngles (escapeWildcards (trimList q)) :=
      List.take_subset _ _ hc
    have hangle := List.of_mem_filter hstrip
    have hesc : c ∈ escapeWildcards (trimList q) := List.mem_of_mem_filter hstrip
    have hwild := escapeWildcards_no_wildcard hesc
    simp only [Bool.not_eq_true', Bool.or_eq_false_iff, beq_eq_false_iff_ne] at hangle
    exact ⟨fun h => hwild (Or.inl h), fun h => hwild (Or.inr h), hangle.1, hangle.2⟩
  · intro hnone hlen
    have htrim : ∀ c ∈ trimList q, ¬(c = '%' ∨ c = '_' ∨ c = '<' ∨ c = '>') :=
      fun c hc => hnone c (trimList_subset q hc)
    rw [sanitizeSearchQuery,
      escapeWildcards_id (fun c hc => fun h => htrim c hc (h.elim Or.inl (Or.inr ∘ Or.inl))),
      stripAngles_id (fun c hc => fun h =>
        htrim c hc (h.elim (Or.inr ∘ Or.inr ∘ Or.inl) (Or.inr ∘ Or.inr ∘ Or.inr))),
      List.take_of_length_le hlen]

/-- C2 witness: a plain query passes through sanitization as its trimmed
form. -/
theorem sanitizeSearchQuery_amended_witness :
    sanitizeSearchQuery "abc".toList = trimList "abc".toList :=
  (sanitizeSearchQuery_amended "abc".toList).2.2 (by decide) (by decide)

/-- C5: a query that is empty or whitespace-only trims to nothing, so it
sanitizes to nothing, and searchPasswords returns exactly
getAllPasswords applied to the same table — the identical request,
result set and ordering. -/
theorem search_blank_query_is_getAll (q : Str) (db : ReadRequest → List DatabasePasswordRow)
    (h : trimList q = []) : searchPasswords q db = getAllPasswords db := by
  simp [searchPasswords, sanitizeSearchQuery, h, escapeWildcards, stripAngles]

/-- C5 witness: searching for three spaces over the empty table equals
fetching everything. -/
theorem search_blank_query_is_getAll_witness :
    searchPasswords "   ".toList (fun _ => []) = getAllPasswords (fun _ => []) :=
  search_blank_query_is_getAll "   ".toList (fun _ => []) (by decide)

/-- A truthy row field is present. -/
lemma fieldTruthy_ne_none {v : Option Str} (h : fieldTruthy v = true) : v ≠ none := by
  cases v with
  | none => simp [fieldTruthy] at h
  | some s => exact fun hc => Option.noConfusion hc

/-- A truthy row field equals `some` of its extracted value. -/
lemma fieldTruthy_some_getD {v : Option Str} (h : fieldTruthy v = true) :
    v = some (v.getD []) := by
  cases v with
  | none => simp [fieldTruthy] at h
  | some s => rfl

/-- C7: the row-to-record conversion errors with a missing-field message
whenever any of the six required fields is absent on the returned row,
and on success it is the one-to-one rename (created_at to createdAt,
updated_at to updatedAt, the rest verbatim) — a partially-populated
record is never returned silently. -/
theorem convertFromDatabase_spec (r : DatabasePasswordRow) :
    ((r.id = none ∨ r.service = none ∨ r.username = none ∨ r.password = none ∨
      r.created_at = none ∨ r.updated_at = none) →
      ∃ f, convertFromDatabase r = .error ("Missing required field: " ++ f)) ∧
    (∀ e, convertFromDatabase r = .ok e →
      r.id = some e.id ∧ r.service = some e.service ∧ r.username = some e.username ∧
      r.password = some e.password ∧ r.created_at = some e.createdAt ∧
      r.updated_at = some e.updatedAt) := by
  constructor
  · intro hnone
    unfold convertFromDatabase
    split_ifs with h1 h2 h3 h4 h5 h6
    · exact ⟨"id", rfl⟩
    · exact ⟨"service", rfl⟩
    · exact ⟨"username", rfl⟩
    · exact ⟨"password", rfl⟩
    · exact ⟨"created_at", rfl⟩
    · exact ⟨"updated_at", rfl⟩
    · exfalso
      rw [Bool.not_eq_false] at h1 h2 h3 h4 h5 h6
      rcases hnone with h | h | h | h | h | h
      · exact fieldTruthy_ne_none h1 h
      · exact fieldTruthy_ne_none h2 h
      · exact fieldTruthy_ne_none h3 h
      · exact fieldTruthy_ne_none h4 h
      · exact fieldTruthy_ne_none h5 h
      · exact fieldTruthy_ne_none h6 h
  · intro e he
    unfold convertFromDatabase at he
    split_ifs at he with h1 h2 h3 h4 h5 h6
    rw [Bool.not_eq_false] at h1 h2 h3 h4 h5 h6
    cases he
    exact ⟨fieldTruthy_some_getD h1, fieldTruthy_some_getD h2, fieldTruthy_some_getD h3,
      fieldTruthy_some_getD h4, fieldTruthy_some_getD h5, fieldTruthy_some_getD h6⟩

/-- C7 witness: a row missing created_at converts to a missing-field
error, and a fully-populated row converts to the renamed record. -/
theorem convertFromDatabase_spec_witness :
    ∃ f, convertFromDatabase
      ⟨some "i".toList, some "s".toList, some "u".toList, some "p".toList,
       none, some "t".toList⟩ = .error ("Missing required field: " ++ f) :=
  (convertFromDatabase_spec _).1 (Or.inr (Or.inr (Or.inr (Or.inr (Or.inl rfl)))))

/-- A stored row of the remote table "passwords" (timestamps as
milliseconds so their order is visible to the model). -/
structure TableRow where
  id : Str
  service : Str
  username : Str
  password : Str
  created_at : Nat
  updated_at : Nat
deriving DecidableEq, Repr

/-- Setting one requested column of a row. -/
def setColumn (row : TableRow) : UpdateKey × Str → TableRow
  | (UpdateKey.service, v) => { row with service := v }
  | (UpdateKey.username, v) => { row with username := v }
  | (UpdateKey.password, v) => { row with password := v }

/-- Modelled from the spec: how the remote table applies the update
request `update set fields where id = eq` — the repository carries no
schema or trigger sources, and the spec states that an update sets
exactly the requested columns, that only updatedAt and the changed
fields move, and that updatedAt is refreshed on every successful
mutation while id and createdAt are never touched. -/
def applyUpdateRow (row : TableRow) (fields : List (UpdateKey × Str)) (now : Nat) : TableRow :=
  { fields.foldl setColumn row with updated_at := now }

/-- Reading one text column of a row. -/
def getColumn (row : TableRow) : UpdateKey → Str
  | UpdateKey.service => row.service
  | UpdateKey.username => row.username
  | UpdateKey.password => row.password

lemma setColumn_id (row : TableRow) (kv : UpdateKey × Str) :
    (setColumn row kv).id = row.id := by
  rcases kv with ⟨k, v⟩
  cases k <;> rfl

lemma setColumn_created (row : TableRow) (kv : UpdateKey × Str) :
    (setColumn row kv).created_at = row.created_at := by
  rcases kv with ⟨k, v⟩
  cases k <;> rfl

lemma foldl_setColumn_id (fs : List (UpdateKey × Str)) (row : TableRow) :
    (fs.foldl setColumn row).id = row.id := by
  induction fs generalizing row with
  | nil => rfl
  | cons kv rest ih => rw [List.foldl_cons, ih, setColumn_id]

lemma foldl_setColumn_created (fs : List (UpdateKey × Str)) (row : TableRow) :
    (fs.foldl setColumn row).created_at = row.created_at := by
  induction fs generalizing row with
  | nil => rfl
  | cons kv rest ih => rw [List.foldl_cons, ih, setColumn_created]

lemma setColumn_getColumn_ne (row : TableRow) (kv : UpdateKey × Str) (k : UpdateKey)
    (h : kv.1 ≠ k) : getColumn (setColumn row kv) k = getColumn row k := by
  rcases kv with ⟨k1, v⟩
  cases k1 <;> cases k <;> first | rfl | exact absurd rfl h

lemma foldl_setColumn_getColumn (fs : List (UpdateKey × Str)) (row : TableRow) (k : UpdateKey)
    (h : ∀ kv ∈ fs, kv.1 ≠ k) :
    getColumn (fs.foldl setColumn row) k = getColumn row k := by
  induction fs generalizing row with
  | nil => rfl
  | cons kv rest ih =>
    rw [List.foldl_cons, ih _ (fun x hx => h x (List.mem_cons_of_mem kv hx)),
      setColumn_getColumn_ne row kv k (h kv (List.mem_cons_self kv rest))]

/-- A field kept by the update-object reduce records which input field
supplied it. -/
lemma collectUpdateFields_key_src {d : UpdatePasswordEntry} {kv : UpdateKey × Str}
    (h : kv ∈ collectUpdateFields d) :
    (kv.1 = UpdateKey.service → d.service = some kv.2) ∧
    (kv.1 = UpdateKey.username → d.username = some kv.2) ∧
    (kv.1 = UpdateKey.password → d.password = some kv.2) := by
  rcases List.mem_filterMap.mp h with ⟨⟨k, v⟩, hmem, hf⟩
  cases v with
  | none => simp at hf
  | some s =>
    by_cases hs : trimList s = []
    · simp [hs] at hf
    · simp only [if_neg hs] at hf
      injection hf with hf2
      subst hf2
      simp only [entryList, List.mem_cons, List.not_mem_nil, or_false] at hmem
      rcases hmem with h1 | h1 | h1
      · injection h1 with hk hv
        subst hk
        exact ⟨fun _ => hv.symm, fun hk2 => UpdateKey.noConfusion hk2,
          fun hk2 => UpdateKey.noConfusion hk2⟩
      · injection h1 with hk hv
        subst hk
        exact ⟨fun hk2 => UpdateKey.noConfusion hk2, fun _ => hv.symm,
          fun hk2 => UpdateKey.noConfusion hk2⟩
      · injection h1 with hk hv
        subst hk
        exact ⟨fun hk2 => UpdateKey.noConfusion hk2, fun hk2 => UpdateKey.noConfusion hk2,
          fun _ => hv.symm⟩

/-- C6: an update applied to a row changes only the supplied fields and
the updatedAt timestamp: id and created_at keep their values (created_at
thus stays at its at-creation value), any field absent from the input is
unchanged, and updated_at becomes the refresh time, strictly above its
previous value whenever time moved forward. -/
theorem updatePassword_frame (id : Str) (d : UpdatePasswordEntry) (req : UpdateRequest)
    (row : TableRow) (now : Nat)
    (hok : updatePasswordPre id d = .ok req) (hlt : row.updated_at < now) :
    (applyUpdateRow row req.fields now).id = row.id ∧
    (applyUpdateRow row req.fields now).created_at = row.created_at ∧
    (applyUpdateRow row req.fields now).updated_at = now ∧
    row.updated_at < (applyUpdateRow row req.fields now).updated_at ∧
    (d.service = none → (applyUpdateRow row req.fields now).service = row.service) ∧
    (d.username = none → (applyUpdateRow row req.fields now).username = row.username) ∧
    (d.password = none → (applyUpdateRow row req.fields now).password = row.password) := by
  have hfields := updatePasswordPre_ok_fields hok
  refine ⟨?_, ?_, rfl, hlt, ?_, ?_, ?_⟩
  · exact foldl_setColumn_id _ _
  · exact foldl_setColumn_created _ _
  · intro hnone
    have habs : ∀ kv ∈ req.fields, kv.1 ≠ UpdateKey.service := by
      intro kv hkv hk
      rw [hfields] at hkv
      have := (collectUpdateFields_key_src hkv).1 hk
      rw [hnone] at this
      cases this
    exact foldl_setColumn_getColumn _ _ UpdateKey.service habs
  · intro hnone
    have habs : ∀ kv ∈ req.fields, kv.1 ≠ UpdateKey.username := by
      intro kv hkv hk
      rw [hfields] at hkv
      have := (collectUpdateFields_key_src hkv).2.1 hk
      rw [hnone] at this
      cases this
    exact foldl_setColumn_getColumn _ _ UpdateKey.username habs
  · intro hnone
    have habs : ∀ kv ∈ req.fields, kv.1 ≠ UpdateKey.password := by
      intro kv hkv hk
      rw [hfields] at hkv
      have := (collectUpdateFields_key_src hkv).2.2 hk
      rw [hnone] at this
      cases this
    exact foldl_setColumn_getColumn _ _ UpdateKey.password habs

/-- C6 witness: updating only the password of a concrete row leaves id,
created_at and service in place and moves updated_at from 5 to 6. -/
theorem updatePassword_frame_witness :
    (applyUpdateRow ⟨"abc".toList, "Email".toList, "a".toList, "p".toList, 5, 5⟩
        [(UpdateKey.password, "q".toList)] 6).created_at = 5 ∧
    (applyUpdateRow ⟨"abc".toList, "Email".toList, "a".toList, "p".toList, 5, 5⟩
        [(UpdateKey.password, "q".toList)] 6).updated_at = 6 ∧
    (applyUpdateRow ⟨"abc".toList, "Email".toList, "a".toList, "p".toList, 5, 5⟩
        [(UpdateKey.password, "q".toList)] 6).service = "Email".toList := by
  have h := updatePassword_frame "abc".toList ⟨none, none, some "q".toList⟩
    ⟨"abc".toList, [(UpdateKey.password, "q".toList)]⟩
    ⟨"abc".toList, "Email".toList, "a".toList, "p".toList, 5, 5⟩ 6 rfl (by decide)
  exact ⟨h.2.1, h.2.2.1, h.2.2.2.2.1 rfl⟩

/-- Result shape of getPasswordStats. -/
structure PasswordStats where
  total : Nat
  recentCount : Nat
deriving DecidableEq, Repr

def msPerDay : Nat := 86400000

/-- The count-only query for all rows. -/
def countAllRows (rows : List TableRow) : Nat := rows.length

/-- The count-only query with the gte filter on created_at: the code
moves the current date back seven days and counts rows created at or
after that cutoff. -/
def countRecentRows (rows : List TableRow) (now : Nat) : Nat :=
  (rows.filter fun r => now - 7 * msPerDay ≤ r.created_at).length

/-- SupabasePasswordService.getPasswordStats over the outcomes of its
two count queries: a failing total query is caught by the outer handler,
which returns zero counts instead of throwing; a failing recent query
only logs a warning, the recent count falls back to 0 and the total is
kept; otherwise both counts are reported (a null count is coerced to
0, which coincides with the Nat model). -/
def getPasswordStats (totalRes recentRes : Except String Nat) : PasswordStats :=
  match totalRes with
  | .error _ => ⟨0, 0⟩
  | .ok t =>
    match recentRes with
    | .error _ => ⟨t, 0⟩
    | .ok r => ⟨t, r⟩

/-- C8: with both queries answered, getPasswordStats reports the number
of all rows as total and the number of rows created within the trailing
seven days as recentCount; when the recent-count query fails while the
total succeeds, it reports recentCount 0 with the correct total instead
of failing the whole call. -/
theorem getPasswordStats_spec (rows : List TableRow) (now : Nat) (e : String) :
    getPasswordStats (.ok (countAllRows rows)) (.error e) = ⟨rows.length, 0⟩ ∧
    getPasswordStats (.ok (countAllRows rows)) (.ok (countRecentRows rows now)) =
      ⟨rows.length, (rows.filter fun r => now - 7 * msPerDay ≤ r.created_at).length⟩ :=
  ⟨rfl, rfl⟩

/-- The configuration object of the supabase client module, in
declaration order (supabaseUrl from VITE_SUPABASE_URL, supabaseAnonKey
from VITE_SUPABASE_ANON_KEY); `none` models an unset variable. -/
def configEntries (supabaseUrl supabaseAnonKey : Option Str) : List (String × Option Str) :=
  [("supabaseUrl", supabaseUrl), ("supabaseAnonKey", supabaseAnonKey)]

/-- validateConfig (run at module load, before the client is
constructed): collect the names of the falsy entries in order and throw
an error enumerating exactly them, joined by a comma; return normally
when both values are truthy.  JS truthiness makes an empty-string value
count as missing, like an unset one. -/
def validateConfig (supabaseUrl supabaseAnonKey : Option Str) : Option String :=
  let missing := ((configEntries supabaseUrl supabaseAnonKey).filter
    fun kv => !fieldTruthy kv.2).map Prod.fst
  if missing.length > 0 then
    some ("Missing environment variables: " ++ String.intercalate ", " missing)
  else none

/-- C9: client construction fails at startup exactly when a
configuration value is missing, with an error enumerating exactly the
missing value name(s); with both values supplied no error is raised. -/
theorem validateConfig_spec (u k : Option Str) :
    (fieldTruthy u = true → fieldTruthy k = true → validateConfig u k = none) ∧
    (fieldTruthy u = false → fieldTruthy k = true →
      validateConfig u k = some "Missing environment variables: supabaseUrl") ∧
    (fieldTruthy u = true → fieldTruthy k = false →
      validateConfig u k = some "Missing environment variables: supabaseAnonKey") ∧
    (fieldTruthy u = false → fieldTruthy k = false →
      validateConfig u k =
        some "Missing environment variables: supabaseUrl, supabaseAnonKey") := by
  refine ⟨?_, ?_, ?_, ?_⟩ <;> intro h1 h2 <;>
    simp [validateConfig, configEntries, h1, h2, String.intercalate] <;> rfl

/-- C9 witness: with the url unset and the key supplied, startup fails
naming exactly supabaseUrl; with both supplied it does not fail. -/
theorem validateConfig_spec_witness :
    validateConfig none (some "k".toList) =
      some "Missing environment variables: supabaseUrl" ∧
    validateConfig (some "u".toList) (some "k".toList) = none :=
  ⟨(validateConfig_spec none (some "k".toList)).2.1 rfl (by decide),
   (validateConfig_spec (some "u".toList) (some "k".toList)).1 (by decide) (by decide)⟩

end MemorySafeGuard
